import Mathlib

/-!
Verification of the `orion-schema` GraphQL schema-analysis engine.

The definitions below are a shallow embedding of the TypeScript sources:
`src/analyzer.ts`, `src/analyzer/type-utils.ts`, `src/analyzer/entity-extractor.ts`,
the operation extractor, `src/analyzer/summary-generator.ts` and
`src/ai-config-generator.ts`.  JavaScript `Map`s are modelled as insertion
lists with last-write-wins lookup, JS `Set`s as insertion-ordered duplicate-free
lists, and nullable values as `Option`.  String operations are modelled over
character lists (the source only manipulates ASCII names, so `Char.toLower`
and `Char.toUpper` agree with the JS behaviour on every input the code uses).
-/

-- ===========================================================================
-- Data model (mirrors `types.ts`; record fields that no analysed function
-- ever reads - `inputFields`, `interfaces`, `enumValues`, `possibleTypes`,
-- `isDeprecated`, `deprecationReason`, `directives` - are omitted)
-- ===========================================================================

inductive TypeKind where
  | SCALAR | OBJECT | INTERFACE | UNION | ENUM | INPUT_OBJECT | LIST | NON_NULL
deriving DecidableEq

/-- A (possibly wrapped) type reference: `{kind, name, ofType}`. -/
inductive TypeRef where
  | mk (kind : TypeKind) (name : Option String) (ofType : Option TypeRef)

def TypeRef.kind : TypeRef → TypeKind
  | .mk k _ _ => k

def TypeRef.name : TypeRef → Option String
  | .mk _ n _ => n

def TypeRef.ofType : TypeRef → Option TypeRef
  | .mk _ _ o => o

structure IntrospectionInputValue where
  name : String
  description : Option String
  type : TypeRef

structure IntrospectionField where
  name : String
  description : Option String
  args : List IntrospectionInputValue
  type : TypeRef

structure IntrospectionType where
  kind : TypeKind
  name : String
  description : Option String
  fields : Option (List IntrospectionField)

/-- The introspection result; `queryType`/`mutationType` hold the root type
name (the source only ever reads `.name` of those objects). -/
structure IntrospectionSchema where
  queryType : Option String
  mutationType : Option String
  subscriptionType : Option String
  types : List IntrospectionType

structure UnwrappedType where
  typeName : String
  isNonNull : Bool
  isList : Bool
deriving DecidableEq

structure FieldInfo where
  name : String
  typeName : String
  isNonNull : Bool
  isList : Bool
  description : Option String
deriving DecidableEq

structure EntityCharacteristics where
  isVolatile : Bool
  isUserSpecific : Bool
  isCollection : Bool
  hasSensitiveFields : Bool
  isRootType : Bool
deriving DecidableEq

structure EntityType where
  name : String
  description : Option String
  hasId : Bool
  fields : List FieldInfo
  references : List String
  referencedBy : List String
  characteristics : EntityCharacteristics
deriving DecidableEq

structure ArgumentInfo where
  name : String
  typeName : String
  isRequired : Bool
  description : Option String
deriving DecidableEq

structure OperationType where
  name : String
  description : Option String
  returnType : String
  returnsList : Bool
  arguments : List ArgumentInfo
  affectedTypes : List String
deriving DecidableEq

structure TypeRelationship where
  -- `from` and `to` are keywords in Lean, hence the trailing underscore
  from_ : String
  to_ : String
  fieldName : String
  isList : Bool
  direction : String
deriving DecidableEq

structure AnalyzedSchema where
  entities : List EntityType
  queries : List OperationType
  mutations : List OperationType
  relationships : List TypeRelationship
  typeMap : List IntrospectionType

-- ===========================================================================
-- JS string / collection primitives used by the source
-- ===========================================================================

/-- JS `String.prototype.toLowerCase` (ASCII model). -/
def jsToLower (s : String) : String :=
  String.mk (s.data.map Char.toLower)

/-- JS `String.prototype.startsWith`. -/
def jsStartsWith (s pre : String) : Bool :=
  pre.data.isPrefixOf s.data

/-- JS `String.prototype.endsWith`. -/
def jsEndsWith (s suf : String) : Bool :=
  suf.data.reverse.isPrefixOf s.data.reverse

/-- Scan for `sub` as a contiguous sublist of `hay`. -/
def containsSub (sub : List Char) : List Char → Bool
  | [] => sub.isEmpty
  | c :: cs => sub.isPrefixOf (c :: cs) || containsSub sub cs

/-- JS `String.prototype.includes`. -/
def jsIncludes (s sub : String) : Bool :=
  containsSub sub.data s.data

/-- JS `Set.prototype.add` on an insertion-ordered duplicate-free list. -/
def insertUniq (l : List String) (s : String) : List String :=
  if l.contains s then l else l ++ [s]

/-- Lookup in a JS `Map` built by `for (const t of types) map.set(t.name, t)`:
last write wins. -/
def tmGet (typeMap : List IntrospectionType) (name : String) :
    Option IntrospectionType :=
  typeMap.reverse.find? (fun t => t.name == name)

def tmHas (typeMap : List IntrospectionType) (name : String) : Bool :=
  (tmGet typeMap name).isSome

-- ===========================================================================
-- Constants (`analyzer/constants.ts`)
-- ===========================================================================

def BUILT_IN_TYPES : List String :=
  ["String", "Int", "Float", "Boolean", "ID",
   "__Schema", "__Type", "__TypeKind", "__Field", "__InputValue",
   "__EnumValue", "__Directive", "__DirectiveLocation"]

def VOLATILE_FIELD_PATTERNS : List String :=
  ["updatedAt", "modifiedAt", "lastModified", "lastUpdated", "lastSeen",
   "lastActive", "viewCount", "likeCount", "commentCount", "score",
   "rating", "status", "state"]

def USER_SPECIFIC_PATTERNS : List String :=
  ["userId", "ownerId", "authorId", "creatorId", "user", "owner",
   "author", "creator", "me", "currentUser", "viewer", "myProfile"]

def SENSITIVE_FIELD_PATTERNS : List String :=
  ["email", "password", "passwordHash", "token", "secret", "apiKey",
   "privateKey", "ssn", "creditCard", "phone", "address", "salary",
   "balance"]

/-- Keys of `MUTATION_PATTERNS`, in `Object.entries` (insertion) order. -/
def MUTATION_PREFIXES : List String :=
  ["create", "add", "insert", "update", "edit", "modify",
   "delete", "remove", "destroy"]

-- ===========================================================================
-- Type Reference Resolver (`analyzer/type-utils.ts`, `unwrapType`)
-- ===========================================================================

/-- Loop body of `unwrapType`: walk `ofType` links, OR-ing the flags.
The `else if` of the source is kept verbatim. -/
def unwrapTypeAux : TypeRef → Bool → Bool → UnwrappedType
  | TypeRef.mk _ nm none, isNonNull, isList =>
      -- `current.name || "Unknown"` (JS: both null and "" are falsy)
      { typeName := match nm with
          | some s => if s == "" then "Unknown" else s
          | none => "Unknown"
        isNonNull, isList }
  | TypeRef.mk k _ (some inner), isNonNull, isList =>
      unwrapTypeAux inner
        (if k == TypeKind.NON_NULL then true else isNonNull)
        (if k == TypeKind.NON_NULL then isList
         else if k == TypeKind.LIST then true else isList)

def unwrapType (typeRef : TypeRef) : UnwrappedType :=
  unwrapTypeAux typeRef false false

-- ===========================================================================
-- Entity Extractor (`analyzer/entity-extractor.ts`)
-- ===========================================================================

def extractFieldInfo (field : IntrospectionField) : FieldInfo :=
  let u := unwrapType field.type
  { name := field.name
    typeName := u.typeName
    isNonNull := u.isNonNull
    isList := u.isList
    description := field.description }

/-- `type.fields.some((f) => f.name === "id" || f.name === "_id" || f.name === "ID")`. -/
def hasIdField (tfs : List IntrospectionField) : Bool :=
  tfs.any (fun f => f.name == "id" || f.name == "_id" || f.name == "ID")

def findReferencedTypes (fields : List IntrospectionField)
    (typeMap : List IntrospectionType) : List String :=
  fields.foldl
    (fun references field =>
      let u := unwrapType field.type
      match tmGet typeMap u.typeName with
      | some referencedType =>
          if referencedType.kind == TypeKind.OBJECT
              && !(BUILT_IN_TYPES.contains u.typeName)
              && !(jsStartsWith u.typeName "__") then
            insertUniq references u.typeName
          else references
      | none => references)
    []

def analyzeCharacteristics (type_ : IntrospectionType)
    (fields : List FieldInfo) : EntityCharacteristics :=
  let fieldNames := fields.map (fun f => jsToLower f.name)
  let isVolatile := VOLATILE_FIELD_PATTERNS.any (fun pat =>
    fieldNames.any (fun name => jsIncludes name (jsToLower pat)))
  let isUserSpecific := USER_SPECIFIC_PATTERNS.any (fun pat =>
    fieldNames.any (fun name => jsIncludes name (jsToLower pat)))
  let hasSensitiveFields := SENSITIVE_FIELD_PATTERNS.any (fun pat =>
    fieldNames.any (fun name => jsIncludes name (jsToLower pat)))
  let isCollection :=
    jsEndsWith type_.name "Connection" || jsEndsWith type_.name "Edge"
      || jsEndsWith type_.name "List" || jsEndsWith type_.name "Page"
  let isRootType :=
    type_.name == "Query" || type_.name == "Mutation"
      || type_.name == "Subscription"
  { isVolatile, isUserSpecific, isCollection, hasSensitiveFields, isRootType }

def extractEntities (types : List IntrospectionType)
    (typeMap : List IntrospectionType) : List EntityType :=
  types.filterMap (fun type_ =>
    -- skip built-in types and non-object types
    if BUILT_IN_TYPES.contains type_.name || jsStartsWith type_.name "__" then
      none
    else if type_.kind != TypeKind.OBJECT then none
    else
      match type_.fields with
      | none => none   -- `!type.fields` (an empty field array is truthy in JS)
      | some tfs =>
          some { name := type_.name
                 description := type_.description
                 hasId := hasIdField tfs
                 fields := tfs.map extractFieldInfo
                 references := findReferencedTypes tfs typeMap
                 referencedBy := []   -- filled in later
                 characteristics :=
                   analyzeCharacteristics type_ (tfs.map extractFieldInfo) })

-- ===========================================================================
-- Operation Extractor (operation extraction source file)
-- ===========================================================================

/-- `mutationName.slice(prefix.length)` then
`withoutPrefix.charAt(0).toUpperCase() + withoutPrefix.slice(1)`. -/
def extractTypeFromMutation (mutationName : String) (pre : String) : String :=
  match (mutationName.data.drop pre.data.length) with
  | [] => ""
  | c :: cs => String.mk (c.toUpper :: cs)

def inferAffectedTypes (mutationName : String) (returnType : String)
    (typeMap : List IntrospectionType) : List String :=
  -- add return type if it is an entity
  let affected : List String :=
    match tmGet typeMap returnType with
    | some returnTypeInfo =>
        if returnTypeInfo.kind == TypeKind.OBJECT
            && !(BUILT_IN_TYPES.contains returnType) then
          insertUniq [] returnType
        else []
    | none => []
  -- try to infer from mutation name patterns
  let lowerName := jsToLower mutationName
  MUTATION_PREFIXES.foldl
    (fun acc pat =>
      if jsStartsWith lowerName pat then
        let t := extractTypeFromMutation mutationName pat
        if t != "" && tmHas typeMap t then insertUniq acc t else acc
      else acc)
    affected

def extractOperations (rootType : Option IntrospectionType)
    (typeMap : List IntrospectionType) (operationType : String) :
    List OperationType :=
  match rootType with
  | none => []
  | some rt =>
      match rt.fields with
      | none => []
      | some fs =>
          fs.map (fun field =>
            let u := unwrapType field.type
            let args : List ArgumentInfo := field.args.map (fun arg =>
              let argType := unwrapType arg.type
              { name := arg.name
                typeName := argType.typeName
                isRequired := argType.isNonNull
                description := arg.description })
            let affectedTypes :=
              if operationType == "mutation" then
                inferAffectedTypes field.name u.typeName typeMap
              else []
            { name := field.name
              description := field.description
              returnType := u.typeName
              returnsList := u.isList
              arguments := args
              affectedTypes })

-- ===========================================================================
-- Relationship Builder (`analyzer.ts`, `buildRelationships` /
-- `enrichEntitiesWithRelationships`)
-- ===========================================================================

def buildRelationships (entities : List EntityType)
    (typeMap : List IntrospectionType) : List TypeRelationship :=
  let entityNames := entities.map (fun e => e.name)
  entities.flatMap (fun entity =>
    match tmGet typeMap entity.name with
    | none => []
    | some type_ =>
        match type_.fields with
        | none => []
        | some fs =>
            fs.filterMap (fun field =>
              let u := unwrapType field.type
              -- check if this field references another entity
              if entityNames.contains u.typeName && u.typeName != entity.name
              then
                some { from_ := entity.name
                       to_ := u.typeName
                       fieldName := field.name
                       isList := u.isList
                       direction := "outgoing" }
              else none))

/-- One step of the `for (const rel of relationships)` loop, restricted to
the single entity object whose `referencedBy` array it may push onto. -/
def referencedByStep (name : String) (acc : List String)
    (rel : TypeRelationship) : List String :=
  if rel.to_ == name && !(acc.contains rel.from_) then acc ++ [rel.from_]
  else acc

/-- The source mutates, per relationship, the object `entityMap.get(rel.to)`,
where `entityMap` maps each name to the LAST entity with that name.  The pure
rendering therefore back-fills `referencedBy` exactly on the last entity of
each name and leaves earlier duplicates untouched. -/
def enrichEntitiesWithRelationships (entities : List EntityType)
    (relationships : List TypeRelationship) : List EntityType :=
  match entities with
  | [] => []
  | e :: rest =>
      (if rest.all (fun e2 => e2.name != e.name) then
         { e with referencedBy :=
             relationships.foldl (referencedByStep e.name) e.referencedBy }
       else e) :: enrichEntitiesWithRelationships rest relationships

-- ===========================================================================
-- Schema Analysis Orchestrator (`analyzer.ts`, `analyzeSchema`)
-- ===========================================================================

def analyzeSchema (schema : IntrospectionSchema) : AnalyzedSchema :=
  -- build type map for quick lookups (insertion list; `tmGet` is the lookup)
  let typeMap := schema.types
  let entities := extractEntities schema.types typeMap
  let queries :=
    match schema.queryType with
    | some qn => extractOperations (tmGet typeMap qn) typeMap "query"
    | none => []
  let mutations :=
    match schema.mutationType with
    | some mn => extractOperations (tmGet typeMap mn) typeMap "mutation"
    | none => []
  let relationships := buildRelationships entities typeMap
  let enriched := enrichEntitiesWithRelationships entities relationships
  { entities := enriched
    queries := queries
    mutations := mutations
    relationships := relationships
    typeMap := typeMap }

-- ===========================================================================
-- Summary Renderer (`analyzer/summary-generator.ts`, `generateSchemaSummary`)
-- ===========================================================================

/-- JS template interpolation of a boolean. -/
def jsBool (b : Bool) : String := if b then "true" else "false"

def generateSchemaSummary (schema : AnalyzedSchema) : String :=
  let lines : List String :=
    ["# GraphQL Schema Analysis\n", "## Entity Types\n"]
  let lines := lines ++ schema.entities.flatMap (fun entity =>
    if entity.characteristics.isRootType then []
    else
      ["### " ++ entity.name]
      ++ (match entity.description with
          | some d => if d != "" then ["Description: " ++ d] else []
          | none => [])
      ++ ["- Has ID: " ++ jsBool entity.hasId,
          "- Fields: "
            ++ String.intercalate ", " (entity.fields.map (fun f => f.name))]
      ++ (if entity.references.length > 0 then
            ["- References: " ++ String.intercalate ", " entity.references]
          else [])
      ++ (if entity.referencedBy.length > 0 then
            ["- Referenced by: " ++ String.intercalate ", " entity.referencedBy]
          else [])
      ++ (let chars := entity.characteristics
          let traits : List String :=
            (if chars.isVolatile then ["volatile"] else [])
            ++ (if chars.isUserSpecific then ["user-specific"] else [])
            ++ (if chars.hasSensitiveFields then ["has-sensitive-data"] else [])
            ++ (if chars.isCollection then ["collection"] else [])
          if traits.length > 0 then
            ["- Characteristics: " ++ String.intercalate ", " traits]
          else [])
      ++ [""])
  let lines := lines ++ ["## Query Operations\n"]
  let lines := lines ++ schema.queries.map (fun query =>
    let args := String.intercalate ", "
      (query.arguments.map (fun a => a.name ++ ": " ++ a.typeName))
    let returnStr :=
      if query.returnsList then "[" ++ query.returnType ++ "]"
      else query.returnType
    "- " ++ query.name ++ "(" ++ args ++ "): " ++ returnStr)
  let lines := lines ++ [""]
  let lines := lines ++
    (if schema.mutations.length > 0 then
      ["## Mutation Operations\n"]
      ++ schema.mutations.flatMap (fun mutation =>
          let args := String.intercalate ", "
            (mutation.arguments.map (fun a => a.name ++ ": " ++ a.typeName))
          let returnStr :=
            if mutation.returnsList then "[" ++ mutation.returnType ++ "]"
            else mutation.returnType
          ["- " ++ mutation.name ++ "(" ++ args ++ "): " ++ returnStr]
          ++ (if mutation.affectedTypes.length > 0 then
                ["  Affects: " ++ String.intercalate ", " mutation.affectedTypes]
              else []))
      ++ [""]
    else [])
  let lines := lines ++
    (if schema.relationships.length > 0 then
      ["## Type Relationships\n"]
      ++ schema.relationships.map (fun rel =>
          let arrow := if rel.isList then "->>" else "->"
          "- " ++ rel.from_ ++ " " ++ arrow ++ " " ++ rel.to_
            ++ " (via " ++ rel.fieldName ++ ")")
    else [])
  String.intercalate "\n" lines

-- ===========================================================================
-- Concrete schemas used in the testable-property scenarios
-- ===========================================================================

/-- Named terminal type reference. -/
def trNamed (k : TypeKind) (n : String) : TypeRef :=
  TypeRef.mk k (some n) none

/-- `NON_NULL` wrapper. -/
def trNonNull (inner : TypeRef) : TypeRef :=
  TypeRef.mk TypeKind.NON_NULL none (some inner)

/-- `LIST` wrapper. -/
def trList (inner : TypeRef) : TypeRef :=
  TypeRef.mk TypeKind.LIST none (some inner)

def mkField (n : String) (t : TypeRef) : IntrospectionField :=
  { name := n, description := none, args := [], type := t }

def mkScalar (n : String) : IntrospectionType :=
  { kind := TypeKind.SCALAR, name := n, description := none, fields := none }

/-- The end-to-end scenario schema:
`Query{users: [User]}`, `Mutation{createPost(title: String!): Post}`,
`User{id: ID!, email: String, posts: [Post]}`,
`Post{id: ID!, title: String!, author: User}`, plus built-in scalars. -/
def demoSchema : IntrospectionSchema :=
  { queryType := some "Query"
    mutationType := some "Mutation"
    subscriptionType := none
    types :=
      [ { kind := TypeKind.OBJECT, name := "Query", description := none
          fields := some [mkField "users" (trList (trNamed TypeKind.OBJECT "User"))] }
      , { kind := TypeKind.OBJECT, name := "Mutation", description := none
          fields := some
            [ { name := "createPost", description := none
                args := [{ name := "title", description := none
                           type := trNonNull (trNamed TypeKind.SCALAR "String") }]
                type := trNamed TypeKind.OBJECT "Post" } ] }
      , { kind := TypeKind.OBJECT, name := "User", description := none
          fields := some
            [ mkField "id" (trNonNull (trNamed TypeKind.SCALAR "ID"))
            , mkField "email" (trNamed TypeKind.SCALAR "String")
            , mkField "posts" (trList (trNamed TypeKind.OBJECT "Post")) ] }
      , { kind := TypeKind.OBJECT, name := "Post", description := none
          fields := some
            [ mkField "id" (trNonNull (trNamed TypeKind.SCALAR "ID"))
            , mkField "title" (trNonNull (trNamed TypeKind.SCALAR "String"))
            , mkField "author" (trNamed TypeKind.OBJECT "User") ] }
      , mkScalar "String", mkScalar "Int", mkScalar "Float"
      , mkScalar "Boolean", mkScalar "ID" ] }

/-- A schema whose single entity has a field of its own type
(`User{id: ID!, friend: User}`). -/
def selfRefSchema : IntrospectionSchema :=
  { queryType := none, mutationType := none, subscriptionType := none
    types :=
      [ { kind := TypeKind.OBJECT, name := "User", description := none
          fields := some
            [ mkField "id" (trNonNull (trNamed TypeKind.SCALAR "ID"))
            , mkField "friend" (trNamed TypeKind.OBJECT "User") ] }
      , mkScalar "ID" ] }

/-- A schema with two distinct object types that share the name `User`
(the introspection data shape does not rule this out), plus a `Post`
referencing `User`. -/
def dupNameSchema : IntrospectionSchema :=
  { queryType := none, mutationType := none, subscriptionType := none
    types :=
      [ { kind := TypeKind.OBJECT, name := "User", description := none
          fields := some [mkField "x" (trNamed TypeKind.SCALAR "String")] }
      , { kind := TypeKind.OBJECT, name := "User", description := none
          fields := some [mkField "y" (trNamed TypeKind.SCALAR "String")] }
      , { kind := TypeKind.OBJECT, name := "Post", description := none
          fields := some [mkField "author" (trNamed TypeKind.OBJECT "User")] }
      , mkScalar "String" ] }

-- ===========================================================================
-- JSON values (runtime shape of `JSON.parse` output) and JS coercions
-- ===========================================================================

inductive Json where
  | null
  | bool (b : Bool)
  | num (q : Rat)
  | str (s : String)
  | arr (elems : List Json)
  | obj (fields : List (String × Json))

/-- JS truthiness of a JSON value. -/
def jsTruthy : Json → Bool
  | Json.null => false
  | Json.bool b => b
  | Json.num q => !(q == 0)
  | Json.str s => !(s == "")
  | Json.arr _ => true
  | Json.obj _ => true

/-- Object property lookup; `JSON.parse` keeps the last duplicate key. -/
def lookupLast (fields : List (String × Json)) (k : String) : Option Json :=
  (fields.reverse.find? (fun p => p.1 == k)).map (fun p => p.2)

/-- JS property read `j.k`: `none` is `undefined`; reading a property of
`null` throws a `TypeError`; primitive and array values yield `undefined`
for every property name the parser reads. -/
def getFieldE (j : Json) (k : String) : Except String (Option Json) :=
  match j with
  | Json.null =>
      Except.error ("Cannot read properties of null (reading " ++ k ++ ")")
  | Json.obj fields => Except.ok (lookupLast fields k)
  | _ => Except.ok none

/-- JS `v > 0` on a JSON value, modelled for numbers, booleans and `null`
(the only shapes the statements below apply it to; JS string-to-number
coercion is outside the model). -/
def jsGtZero (v : Json) : Bool :=
  match v with
  | Json.num q => decide (0 < q)
  | Json.bool b => b
  | _ => false

-- ===========================================================================
-- AI response parsing (`ai-config-generator.ts`, `parseAIResponse`)
-- ===========================================================================

structure GeneratedCacheRule where
  types : Json
  maxAge : Option Json
  staleWhileRevalidate : Option Json
  staleIfError : Option Json
  scope : Option Json
  passthrough : Option Json
  reasoning : Json

structure AIConfigResponse where
  rules : List GeneratedCacheRule
  invalidations : Json
  explanation : Json
  confidence : Json
  warnings : List Json

/-- Body of `parsed.rules.map((rule) => ({...}))`: the property reads throw
iff the rule element is `null`. -/
def mapRule (rule : Json) : Except String GeneratedCacheRule := do
  let typesV ← getFieldE rule "types"
  let maxAgeV ← getFieldE rule "maxAge"
  let swrV ← getFieldE rule "staleWhileRevalidate"
  let sieV ← getFieldE rule "staleIfError"
  let scopeV ← getFieldE rule "scope"
  let ptV ← getFieldE rule "passthrough"
  let reasoningV ← getFieldE rule "reasoning"
  Except.ok
    { types :=   -- `rule.types || []`
        match typesV with
        | some v => if jsTruthy v then v else Json.arr []
        | none => Json.arr []
      maxAge :=  -- `rule.maxAge ?? 300` (nullish coalescing)
        match maxAgeV with
        | some Json.null => some (Json.num 300)
        | some v => some v
        | none => some (Json.num 300)
      staleWhileRevalidate := swrV
      staleIfError := sieV
      scope := scopeV
      passthrough := ptV
      reasoning :=   -- `rule.reasoning || "No reasoning provided"`
        match reasoningV with
        | some v => if jsTruthy v then v else Json.str "No reasoning provided"
        | none => Json.str "No reasoning provided" }

/-- The `try { ... }` body of `parseAIResponse` applied to the already
parsed JSON value. -/
def parseAIResponseJson (parsed : Json) : Except String AIConfigResponse := do
  let rulesV ← getFieldE parsed "rules"
  match rulesV with
  | some (Json.arr rs) => do
      let rules ← rs.mapM mapRule
      let invV ← getFieldE parsed "invalidations"
      let expV ← getFieldE parsed "explanation"
      let confV ← getFieldE parsed "confidence"
      let warnV ← getFieldE parsed "warnings"
      Except.ok
        { rules := rules
          invalidations :=    -- `parsed.invalidations || {}`
            match invV with
            | some v => if jsTruthy v then v else Json.obj []
            | none => Json.obj []
          explanation :=      -- `parsed.explanation || "No explanation provided"`
            match expV with
            | some v => if jsTruthy v then v else Json.str "No explanation provided"
            | none => Json.str "No explanation provided"
          confidence :=  -- `typeof parsed.confidence === "number" ? ... : 0.7`
            match confV with
            | some (Json.num q) => Json.num q
            | _ => Json.num (7 / 10)
          warnings :=    -- `Array.isArray(parsed.warnings) ? ... : []`
            match warnV with
            | some (Json.arr w) => w
            | _ => [] }
  | _ => Except.error "Missing or invalid rules array"

-- ===========================================================================
-- Code-fence stripping (the regex IN-SOURCE-CODE-BLOCK match of
-- `parseAIResponse`, over character lists)
-- ===========================================================================

/-- JS `\s` (ASCII portion; the exotic Unicode spaces never matter here). -/
def jsWs (c : Char) : Bool :=
  c == ' ' || c == '\t' || c == '\n' || c == '\r' || c == '\x0b' || c == '\x0c'

/-- Lazy group of the fence regex: the shortest run of characters up to a
closing fence, or `none` when no closing fence exists. -/
def untilFence : List Char → Option (List Char)
  | [] => none
  | c :: cs =>
      if ("```".data).isPrefixOf (c :: cs) then some []
      else
        match untilFence cs with
        | some cap => some (c :: cap)
        | none => none

/-- Try the whole fence regex at the start of `cs` (greedy optional `json`
tag, greedy whitespace, then the lazy capture group). -/
def matchFenceAt (cs : List Char) : Option (List Char) :=
  if ("```".data).isPrefixOf cs then
    let rest := cs.drop 3
    if ("json".data).isPrefixOf rest then
      match untilFence ((rest.drop 4).dropWhile jsWs) with
      | some cap => some cap
      | none => untilFence (rest.dropWhile jsWs)
    else untilFence (rest.dropWhile jsWs)
  else none

/-- Leftmost match of the fence regex. -/
def searchFence : List Char → Option (List Char)
  | [] => none
  | c :: cs =>
      match matchFenceAt (c :: cs) with
      | some cap => some cap
      | none => searchFence cs

def jsTrim (s : String) : String :=
  String.mk (((s.data.dropWhile jsWs).reverse.dropWhile jsWs).reverse)

/-- Fence extraction of `parseAIResponse`: use the capture group only when
the match succeeded and the group is non-empty (JS truthiness of
`codeBlockMatch[1]`), after `trim()`. -/
def stripCodeBlock (text : String) : String :=
  match searchFence text.data with
  | some cap => if cap.isEmpty then text else jsTrim (String.mk cap)
  | none => text

/-- `parseAIResponse`, parameterised by the JS `JSON.parse` primitive
(an external built-in: `none` models a parse exception). -/
def parseAIResponse (parseJson : String → Option Json) (responseText : String) :
    Except String AIConfigResponse :=
  match parseJson (stripCodeBlock responseText) with
  | none => Except.error "Failed to parse AI response: invalid JSON"
  | some parsed =>
      match parseAIResponseJson parsed with
      | Except.ok r => Except.ok r
      | Except.error m => Except.error ("Failed to parse AI response: " ++ m)

-- ===========================================================================
-- Config conversion (`ai-config-generator.ts`, `convertToOrionConfig`)
-- ===========================================================================

inductive TtlPref where
  | short | medium | long
deriving DecidableEq

structure ConfigPreferences where
  defaultTtl : Option TtlPref
  aggressiveCaching : Option Bool
  noCacheTypes : Option (List String)
  privateTypes : Option (List String)
  customHints : Option String

structure OrionCacheRule where
  types : Json
  maxAge : Option Json
  staleWhileRevalidate : Option Json
  staleIfError : Option Json
  scope : Option Json
  passthrough : Option Json

structure CacheDefaults where
  maxAge : Rat
  staleWhileRevalidate : Rat
  staleIfError : Rat

structure OrionCacheConfig where
  version : String
  name : String
  defaults : CacheDefaults
  rules : List OrionCacheRule
  invalidations : Json

def convertRule (rule : GeneratedCacheRule) : OrionCacheRule :=
  let orionRule : OrionCacheRule :=
    { types := rule.types, maxAge := none, staleWhileRevalidate := none
      staleIfError := none, scope := none, passthrough := none }
  -- `if (rule.maxAge !== undefined)`
  let orionRule :=
    match rule.maxAge with
    | some v => { orionRule with maxAge := some v }
    | none => orionRule
  -- `if (rule.staleWhileRevalidate !== undefined && rule.staleWhileRevalidate > 0)`
  let orionRule :=
    match rule.staleWhileRevalidate with
    | some v =>
        if jsGtZero v then { orionRule with staleWhileRevalidate := some v }
        else orionRule
    | none => orionRule
  -- `if (rule.staleIfError !== undefined && rule.staleIfError > 0)`
  let orionRule :=
    match rule.staleIfError with
    | some v =>
        if jsGtZero v then { orionRule with staleIfError := some v }
        else orionRule
    | none => orionRule
  -- `if (rule.scope)`
  let orionRule :=
    match rule.scope with
    | some v => if jsTruthy v then { orionRule with scope := some v } else orionRule
    | none => orionRule
  -- `if (rule.passthrough) orionRule.passthrough = true`
  let orionRule :=
    match rule.passthrough with
    | some v =>
        if jsTruthy v then { orionRule with passthrough := some (Json.bool true) }
        else orionRule
    | none => orionRule
  orionRule

def convertToOrionConfig (aiResponse : AIConfigResponse)
    (preferences : Option ConfigPreferences) : OrionCacheConfig :=
  -- determine default TTL based on preferences
  let defaultMaxAge : Rat :=
    match preferences with
    | some p =>
        match p.defaultTtl with
        | some TtlPref.short => 60
        | some TtlPref.long => 900
        | _ => 300
    | none => 300
  { version := "1.0"
    name := "orion"
    defaults := { maxAge := defaultMaxAge, staleWhileRevalidate := 0
                  staleIfError := 0 }
    rules := aiResponse.rules.map convertRule
    invalidations := aiResponse.invalidations }

-- ===========================================================================
-- Heuristic generator (`ai-config-generator.ts`, `generateBasicConfig`)
-- ===========================================================================

/-- One iteration of the `for (const entity of schema.entities)` grouping
loop; the accumulator is `(volatileTypes, userSpecificTypes, sensitiveTypes,
stableTypes)`. -/
def bucketStep (acc : List String × List String × List String × List String)
    (entity : EntityType) :
    List String × List String × List String × List String :=
  let (volatileTypes, userSpecificTypes, sensitiveTypes, stableTypes) := acc
  if entity.characteristics.isRootType then acc
  else if entity.characteristics.hasSensitiveFields then
    (volatileTypes, userSpecificTypes, sensitiveTypes ++ [entity.name],
     stableTypes)
  else if entity.characteristics.isUserSpecific then
    (volatileTypes, userSpecificTypes ++ [entity.name], sensitiveTypes,
     stableTypes)
  else if entity.characteristics.isVolatile then
    (volatileTypes ++ [entity.name], userSpecificTypes, sensitiveTypes,
     stableTypes)
  else
    (volatileTypes, userSpecificTypes, sensitiveTypes,
     stableTypes ++ [entity.name])

/-- JS object property assignment `obj[k] = v` on an insertion-ordered
association list (an existing key keeps its position). -/
def recordSet (m : List (String × Json)) (k : String) (v : Json) :
    List (String × Json) :=
  if m.any (fun p => p.1 == k) then
    m.map (fun p => if p.1 == k then (p.1, v) else p)
  else m ++ [(k, v)]

def strJsonArr (xs : List String) : Json :=
  Json.arr (xs.map Json.str)

/-- One iteration of the `for (const mutation of schema.mutations)`
invalidation loop. -/
def invalidationStep (inv : List (String × Json)) (mutation : OperationType) :
    List (String × Json) :=
  if mutation.affectedTypes.length > 0 then
    recordSet inv mutation.name
      (Json.arr (mutation.affectedTypes.map (fun t => Json.str (t ++ ":*"))))
  else inv

def generateBasicConfig (schema : AnalyzedSchema) : OrionCacheConfig :=
  let grouped := schema.entities.foldl bucketStep ([], [], [], [])
  let volatileTypes := grouped.1
  let userSpecificTypes := grouped.2.1
  let sensitiveTypes := grouped.2.2.1
  let stableTypes := grouped.2.2.2
  let rules : List OrionCacheRule :=
    (if sensitiveTypes.length > 0 then
      [{ types := strJsonArr sensitiveTypes
         maxAge := some (Json.num 60)
         staleWhileRevalidate := none, staleIfError := none
         scope := some (Json.str "private"), passthrough := none }]
     else [])
    ++ (if userSpecificTypes.length > 0 then
      [{ types := strJsonArr userSpecificTypes
         maxAge := some (Json.num 300)
         staleWhileRevalidate := some (Json.num 60), staleIfError := none
         scope := some (Json.str "private"), passthrough := none }]
     else [])
    ++ (if volatileTypes.length > 0 then
      [{ types := strJsonArr volatileTypes
         maxAge := some (Json.num 60)
         staleWhileRevalidate := some (Json.num 30), staleIfError := none
         scope := none, passthrough := none }]
     else [])
    ++ (if stableTypes.length > 0 then
      [{ types := strJsonArr stableTypes
         maxAge := some (Json.num 900)
         staleWhileRevalidate := some (Json.num 300)
         staleIfError := some (Json.num 3600)
         scope := none, passthrough := none }]
     else [])
  let invalidations := schema.mutations.foldl invalidationStep []
  { version := "1.0"
    name := "orion"
    defaults := { maxAge := 300, staleWhileRevalidate := 60, staleIfError := 0 }
    rules := rules
    invalidations := Json.obj invalidations }

-- ===========================================================================
-- Claim-side specification functions (stated from the spec text, to be
-- compared with the translated source functions above)
-- ===========================================================================

/-- A type reference that is a chain of `NON_NULL`/`LIST` wrappers around a
terminal node (the shape quantified over by the resolver claim). -/
def isWrapperChain : TypeRef → Bool
  | TypeRef.mk _ _ none => true
  | TypeRef.mk k _ (some inner) =>
      (k == TypeKind.NON_NULL || k == TypeKind.LIST) && isWrapperChain inner

/-- Whether any wrapper (non-terminal node) of the chain is `NON_NULL`. -/
def chainHasNonNull : TypeRef → Bool
  | TypeRef.mk _ _ none => false
  | TypeRef.mk k _ (some inner) =>
      k == TypeKind.NON_NULL || chainHasNonNull inner

/-- Whether any wrapper (non-terminal node) of the chain is `LIST`. -/
def chainHasList : TypeRef → Bool
  | TypeRef.mk _ _ none => false
  | TypeRef.mk k _ (some inner) => k == TypeKind.LIST || chainHasList inner

/-- The name carried by the terminal node of the chain. -/
def terminalName : TypeRef → Option String
  | TypeRef.mk _ nm none => nm
  | TypeRef.mk _ _ (some inner) => terminalName inner

/-- Deduplication keeping the first occurrence, in discovery order. -/
def dedupKeepFirst (l : List String) : List String :=
  l.foldl insertUniq []

/-- Affected-types inference read literally from the claim: the resolved
return type name when the type map binds it to a non-built-in object type,
then, per matching verb prefix, the stripped-and-capitalised string whenever
it is a key of the type map; deduplicated in discovery order.  (No
non-emptiness guard on the derived string.) -/
def affectedTypesClaim (mutationName returnType : String)
    (typeMap : List IntrospectionType) : List String :=
  let fromReturn : List String :=
    match tmGet typeMap returnType with
    | some rt =>
        if rt.kind == TypeKind.OBJECT
            && !(BUILT_IN_TYPES.contains returnType) then [returnType]
        else []
    | none => []
  let fromPrefixes := MUTATION_PREFIXES.filterMap (fun pre =>
    if jsStartsWith (jsToLower mutationName) pre then
      let t := extractTypeFromMutation mutationName pre
      if tmHas typeMap t then some t else none
    else none)
  dedupKeepFirst (fromReturn ++ fromPrefixes)

/-- As `affectedTypesClaim`, but requiring the derived string to be
non-empty, mirroring the `type &&` truthiness guard of the source. -/
def affectedTypesClaimAmended (mutationName returnType : String)
    (typeMap : List IntrospectionType) : List String :=
  let fromReturn : List String :=
    match tmGet typeMap returnType with
    | some rt =>
        if rt.kind == TypeKind.OBJECT
            && !(BUILT_IN_TYPES.contains returnType) then [returnType]
        else []
    | none => []
  let fromPrefixes := MUTATION_PREFIXES.filterMap (fun pre =>
    if jsStartsWith (jsToLower mutationName) pre then
      let t := extractTypeFromMutation mutationName pre
      if t != "" && tmHas typeMap t then some t else none
    else none)
  dedupKeepFirst (fromReturn ++ fromPrefixes)

/-- The four cache buckets of the heuristic generator, in priority order. -/
inductive CacheBucket where
  | sensitive | userSpecific | volatile | stable
deriving DecidableEq

/-- First matching bucket in the priority order
sensitive > userSpecific > volatile > stable. -/
def bucketOf (e : EntityType) : CacheBucket :=
  if e.characteristics.hasSensitiveFields then CacheBucket.sensitive
  else if e.characteristics.isUserSpecific then CacheBucket.userSpecific
  else if e.characteristics.isVolatile then CacheBucket.volatile
  else CacheBucket.stable

/-- Names of the non-root entities that fall into bucket `b`, in entity
order. -/
def bucketNames (schema : AnalyzedSchema) (b : CacheBucket) : List String :=
  (schema.entities.filter (fun e =>
    !e.characteristics.isRootType && bucketOf e == b)).map (fun e => e.name)

/-- The fixed policy constants of each bucket, as one cache rule. -/
def bucketRule (b : CacheBucket) (names : List String) : OrionCacheRule :=
  match b with
  | CacheBucket.sensitive =>
      { types := strJsonArr names, maxAge := some (Json.num 60)
        staleWhileRevalidate := none, staleIfError := none
        scope := some (Json.str "private"), passthrough := none }
  | CacheBucket.userSpecific =>
      { types := strJsonArr names, maxAge := some (Json.num 300)
        staleWhileRevalidate := some (Json.num 60), staleIfError := none
        scope := some (Json.str "private"), passthrough := none }
  | CacheBucket.volatile =>
      { types := strJsonArr names, maxAge := some (Json.num 60)
        staleWhileRevalidate := some (Json.num 30), staleIfError := none
        scope := none, passthrough := none }
  | CacheBucket.stable =>
      { types := strJsonArr names, maxAge := some (Json.num 900)
        staleWhileRevalidate := some (Json.num 300)
        staleIfError := some (Json.num 3600)
        scope := none, passthrough := none }

/-- One rule per non-empty bucket, in priority order. -/
def rulesSpec (schema : AnalyzedSchema) : List OrionCacheRule :=
  (if (bucketNames schema CacheBucket.sensitive).length > 0 then
    [bucketRule CacheBucket.sensitive (bucketNames schema CacheBucket.sensitive)]
   else [])
  ++ (if (bucketNames schema CacheBucket.userSpecific).length > 0 then
    [bucketRule CacheBucket.userSpecific
      (bucketNames schema CacheBucket.userSpecific)]
   else [])
  ++ (if (bucketNames schema CacheBucket.volatile).length > 0 then
    [bucketRule CacheBucket.volatile (bucketNames schema CacheBucket.volatile)]
   else [])
  ++ (if (bucketNames schema CacheBucket.stable).length > 0 then
    [bucketRule CacheBucket.stable (bucketNames schema CacheBucket.stable)]
   else [])

/-- One invalidation entry per mutation with non-empty affected types,
mapping the mutation name to the `"<Type>:*"` patterns. -/
def invalidationsSpec (schema : AnalyzedSchema) : List (String × Json) :=
  (schema.mutations.filter (fun m => m.affectedTypes.length > 0)).map
    (fun m => (m.name,
      Json.arr (m.affectedTypes.map (fun t => Json.str (t ++ ":*")))))

/-- The `rules` field of a parsed top-level JSON value, when it is an
array (the overall-shape requirement of the response parser claim). -/
def rulesArrayOf : Json → Option (List Json)
  | Json.obj fields =>
      match lookupLast fields "rules" with
      | some (Json.arr rs) => some rs
      | _ => none
  | _ => none

/-- Total JS property read for non-`null` values (`undefined` is `none`). -/
def getField? (j : Json) (k : String) : Option Json :=
  match j with
  | Json.obj fields => lookupLast fields k
  | _ => none

/-- The default `maxAge` demanded by the TTL preference, per the claim:
60 for short, 900 for long, 300 when medium or absent. -/
def prefMaxAgeSpec (preferences : Option ConfigPreferences) : Rat :=
  match preferences with
  | some p =>
      match p.defaultTtl with
      | some TtlPref.short => 60
      | some TtlPref.long => 900
      | _ => 300
  | none => 300

-- ===========================================================================
-- Further concrete inputs for the individual claims
-- ===========================================================================

/-- A type map that binds the empty string (the introspection data shape
does not exclude a type named `""`). -/
def emptyNameTypeMap : List IntrospectionType :=
  [{ kind := TypeKind.OBJECT, name := "", description := none
     fields := some [] }]

/-- Type map with a known entity `Widget`. -/
def widgetTypeMap : List IntrospectionType :=
  [{ kind := TypeKind.OBJECT, name := "Widget", description := none
     fields := some [mkField "id" (trNamed TypeKind.SCALAR "ID")] }
   , mkScalar "ID"]

/-- Type map whose only types are scalars (no entity to attribute). -/
def toggleTypeMap : List IntrospectionType :=
  [mkScalar "Boolean", mkScalar "String"]

/-- An object type named `UserProfile` with exactly the fields
`id`, `email`, `updatedAt`. -/
def userProfileType : IntrospectionType :=
  { kind := TypeKind.OBJECT, name := "UserProfile", description := none
    fields := some
      [ mkField "id" (trNonNull (trNamed TypeKind.SCALAR "ID"))
      , mkField "email" (trNamed TypeKind.SCALAR "String")
      , mkField "updatedAt" (trNamed TypeKind.SCALAR "String") ] }

/-- An analyzed schema with one entity that is both sensitive and volatile,
one plain (stable) entity, and one mutation with affected types. -/
def multiTraitSchema : AnalyzedSchema :=
  { entities :=
      [ { name := "Account", description := none, hasId := true, fields := []
          references := [], referencedBy := []
          characteristics :=
            { isVolatile := true, isUserSpecific := false
              isCollection := false, hasSensitiveFields := true
              isRootType := false } }
      , { name := "Widget", description := none, hasId := true, fields := []
          references := [], referencedBy := []
          characteristics :=
            { isVolatile := false, isUserSpecific := false
              isCollection := false, hasSensitiveFields := false
              isRootType := false } } ]
    queries := []
    mutations :=
      [ { name := "createWidget", description := none, returnType := "Widget"
          returnsList := false, arguments := [], affectedTypes := ["Widget"] } ]
    relationships := []
    typeMap := [] }

/-- A `JSON.parse` stub that fails on every input. -/
def pjFail : String → Option Json := fun _ => none

/-- Response text `{"rules":[{}]}` and the value `JSON.parse` gives it. -/
def okRulesText : String := "\x7b\"rules\":[\x7b\x7d]\x7d"

def okRulesJson : Json := Json.obj [("rules", Json.arr [Json.obj []])]

def pjOkRules : String → Option Json :=
  fun s => if s == okRulesText then some okRulesJson else none

/-- Response text `{"rules":[null]}` and the value `JSON.parse` gives it. -/
def nullRuleText : String := "\x7b\"rules\":[null]\x7d"

def nullRuleJson : Json := Json.obj [("rules", Json.arr [Json.null])]

def pjNullRule : String → Option Json :=
  fun s => if s == nullRuleText then some nullRuleJson else none

/-- A parsed AI response with one rule whose optional numeric fields are
present but not strictly positive, and whose `passthrough` is `false`. -/
def sampleAIResponse : AIConfigResponse :=
  { rules :=
      [ { types := Json.arr [Json.str "User"]
          maxAge := some (Json.num 120)
          staleWhileRevalidate := some (Json.num 0)
          staleIfError := some (Json.num 600)
          scope := some (Json.str "private")
          passthrough := some (Json.bool false)
          reasoning := Json.str "sample" } ]
    invalidations := Json.obj []
    explanation := Json.str "sample"
    confidence := Json.num 1
    warnings := [] }

/-- The fallback of the source on the terminal name (`name || "Unknown"`). -/
def nameOrUnknown (nm : Option String) : String :=
  match nm with
  | some s => if s == "" then "Unknown" else s
  | none => "Unknown"

/-- JS `v || dflt` on a possibly-undefined JSON value. -/
def jsOrDefault (v : Option Json) (dflt : Json) : Json :=
  match v with
  | some x => if jsTruthy x then x else dflt
  | none => dflt

/-- `typeof v === "number" ? v : 0.7` on a possibly-undefined JSON value. -/
def confidenceOf (v : Option Json) : Json :=
  match v with
  | some (Json.num q) => Json.num q
  | _ => Json.num (7 / 10)

/-- `Array.isArray(v) ? v : []` on a possibly-undefined JSON value. -/
def warningsOf (v : Option Json) : List Json :=
  match v with
  | some (Json.arr w) => w
  | _ => []

-- ===========================================================================
-- Theorems
-- ===========================================================================

theorem unwrapTypeAux_chain : ∀ (t : TypeRef) (nn l : Bool),
    isWrapperChain t = true →
    unwrapTypeAux t nn l =
      { typeName := nameOrUnknown (terminalName t)
        isNonNull := nn || chainHasNonNull t
        isList := l || chainHasList t }
  | TypeRef.mk _ _ none, nn, l, _ => by
      simp [unwrapTypeAux, terminalName, chainHasNonNull, chainHasList,
        nameOrUnknown]
  | TypeRef.mk k nm (some inner), nn, l, h => by
      have hsplit := h
      simp only [isWrapperChain, Bool.and_eq_true, Bool.or_eq_true] at hsplit
      obtain ⟨hk, hin⟩ := hsplit
      have hstep : unwrapTypeAux (TypeRef.mk k nm (some inner)) nn l
          = unwrapTypeAux inner
              (if k == TypeKind.NON_NULL then true else nn)
              (if k == TypeKind.NON_NULL then l
               else if k == TypeKind.LIST then true else l) := rfl
      rw [hstep, unwrapTypeAux_chain inner _ _ hin]
      simp only [terminalName, chainHasNonNull, chainHasList]
      rcases hk with hk | hk
      · have hk' : k = TypeKind.NON_NULL := beq_iff_eq.mp hk
        subst hk'
        simp [(by decide : (TypeKind.NON_NULL == TypeKind.LIST) = false)]
      · have hk' : k = TypeKind.LIST := beq_iff_eq.mp hk
        subst hk'
        simp [(by decide : (TypeKind.LIST == TypeKind.NON_NULL) = false)]

/-- C7: for every chain of `NON_NULL`/`LIST` wrappers around a terminal
node, `unwrapType` returns the terminal name with `isNonNull` (resp.
`isList`) true iff some wrapper is `NON_NULL` (resp. `LIST`) - AMENDED: the
`"Unknown"` sentinel is returned not only when the terminal node has no
name but also when its name is the empty string (JS falsiness of `""`). -/
theorem c7_unwrap_type_amended (t : TypeRef) (h : isWrapperChain t = true) :
    unwrapType t =
      { typeName := nameOrUnknown (terminalName t)
        isNonNull := chainHasNonNull t
        isList := chainHasList t } := by
  have hx := unwrapTypeAux_chain t false false h
  simpa [unwrapType] using hx

/-- Witness for C7 at the concrete reference `NON_NULL(LIST(User))`. -/
theorem c7_unwrap_type_witness :
    isWrapperChain (trNonNull (trList (trNamed TypeKind.OBJECT "User"))) = true
    ∧ unwrapType (trNonNull (trList (trNamed TypeKind.OBJECT "User"))) =
      { typeName := nameOrUnknown
          (terminalName (trNonNull (trList (trNamed TypeKind.OBJECT "User"))))
        isNonNull :=
          chainHasNonNull (trNonNull (trList (trNamed TypeKind.OBJECT "User")))
        isList :=
          chainHasList (trNonNull (trList (trNamed TypeKind.OBJECT "User"))) } :=
  ⟨rfl, c7_unwrap_type_amended _ rfl⟩

/-- C7 counterexample: a terminal node whose name is the empty string HAS a
name, yet `unwrapType` returns the sentinel `"Unknown"` instead of that
name, so the claim as stated fails at this input. -/
theorem c7_unwrap_type_counterexample :
    isWrapperChain (trNamed TypeKind.OBJECT "") = true
    ∧ terminalName (trNamed TypeKind.OBJECT "") = some ""
    ∧ (unwrapType (trNamed TypeKind.OBJECT "")).typeName = "Unknown"
    ∧ ("Unknown" : String) ≠ "" :=
  ⟨rfl, rfl, rfl, by decide⟩

/-- C9: `generateSchemaSummary` is a pure function of its input - two
renderings of equal `AnalyzedSchema` values are byte-identical. -/
theorem c9_summary_deterministic (s1 s2 : AnalyzedSchema) (h : s1 = s2) :
    generateSchemaSummary s1 = generateSchemaSummary s2 := by
  rw [h]

/-- Witness for C9 at the analyzed end-to-end schema. -/
theorem c9_summary_deterministic_witness :
    generateSchemaSummary (analyzeSchema demoSchema)
      = generateSchemaSummary (analyzeSchema demoSchema) :=
  c9_summary_deterministic _ _ rfl

/-- C1 counterexample: on the end-to-end scenario schema the relationship
list has FOUR edges (the root types `Query` and `Mutation` are extracted as
entities and contribute edges), not the two edges the claim lists. -/
theorem c1_end_to_end_counterexample :
    ¬ ((analyzeSchema demoSchema).relationships.map
        (fun r => (r.from_, r.to_, r.fieldName, r.isList))
      = [("User", "Post", "posts", true), ("Post", "User", "author", false)]) := by
  decide

/-- C1 AMENDED: on the end-to-end scenario schema, `analyzeSchema` returns
entities `Query` (root), `Mutation` (root), `User` (sensitive,
references=[Post], referencedBy=[Query, Post]) and `Post` (user-specific via
its `author` field, references=[User], referencedBy=[Mutation, User]);
exactly the four edges Query->>User (users), Mutation->Post (createPost),
User->>Post (posts), Post->User (author); and the single mutation
`createPost` with affectedTypes=[Post]. -/
theorem c1_end_to_end_amended :
    (analyzeSchema demoSchema).entities.map
        (fun e => (e.name, e.hasId, e.references, e.referencedBy,
                   e.characteristics))
      = [ ("Query", false, ["User"], [],
           { isVolatile := false, isUserSpecific := true
             isCollection := false, hasSensitiveFields := false
             isRootType := true })
        , ("Mutation", false, ["Post"], [],
           { isVolatile := false, isUserSpecific := false
             isCollection := false, hasSensitiveFields := false
             isRootType := true })
        , ("User", true, ["Post"], ["Query", "Post"],
           { isVolatile := false, isUserSpecific := false
             isCollection := false, hasSensitiveFields := true
             isRootType := false })
        , ("Post", true, ["User"], ["Mutation", "User"],
           { isVolatile := false, isUserSpecific := true
             isCollection := false, hasSensitiveFields := false
             isRootType := false }) ]
    ∧ (analyzeSchema demoSchema).relationships
      = [ { from_ := "Query", to_ := "User", fieldName := "users"
            isList := true, direction := "outgoing" }
        , { from_ := "Mutation", to_ := "Post", fieldName := "createPost"
            isList := false, direction := "outgoing" }
        , { from_ := "User", to_ := "Post", fieldName := "posts"
            isList := true, direction := "outgoing" }
        , { from_ := "Post", to_ := "User", fieldName := "author"
            isList := false, direction := "outgoing" } ]
    ∧ (analyzeSchema demoSchema).mutations.map
        (fun m => (m.name, m.affectedTypes))
      = [("createPost", ["Post"])] :=
  ⟨rfl, rfl, rfl⟩

theorem buildRelationships_no_self (entities : List EntityType)
    (tm : List IntrospectionType) :
    ∀ r ∈ buildRelationships entities tm, r.from_ ≠ r.to_ := by
  intro r hr
  simp only [buildRelationships, List.mem_flatMap] at hr
  obtain ⟨e, _, hr⟩ := hr
  split at hr
  · simp at hr
  · split at hr
    · simp at hr
    · simp only [List.mem_filterMap] at hr
      obtain ⟨field, _, heq⟩ := hr
      split at heq
      · rename_i hcond
        cases heq
        simp only [Bool.and_eq_true] at hcond
        obtain ⟨_, hc2⟩ := hcond
        intro hcontra
        exact (bne_iff_ne.mp hc2) hcontra.symm
      · cases heq

/-- C2 AMENDED: for every introspection schema, no relationship edge has
`from` equal to `to`, even when a field on an entity resolves to its own
type name.  (The `references` half of the original claim is refuted by
`c2_self_reference_counterexample`: a self-typed field DOES put the entity
into its own `references` set.) -/
theorem c2_no_self_edges (schema : IntrospectionSchema) :
    ∀ r ∈ (analyzeSchema schema).relationships, r.from_ ≠ r.to_ := by
  intro r hr
  have hrel : (analyzeSchema schema).relationships
      = buildRelationships (extractEntities schema.types schema.types)
          schema.types := rfl
  rw [hrel] at hr
  exact buildRelationships_no_self _ _ r hr

/-- Witness for C2 at a concrete edge of the end-to-end schema. -/
theorem c2_no_self_edges_witness :
    ({ from_ := "Query", to_ := "User", fieldName := "users", isList := true
       direction := "outgoing" } : TypeRelationship)
      ∈ (analyzeSchema demoSchema).relationships
    ∧ ("Query" : String) ≠ "User" := by
  constructor
  · decide
  · exact c2_no_self_edges demoSchema
      { from_ := "Query", to_ := "User", fieldName := "users", isList := true
        direction := "outgoing" } (by decide)

/-- C2 counterexample: in `User{id: ID!, friend: User}` the entity `User`
appears in its OWN `references` set, so the claim as stated is false
(`findReferencedTypes` has no self-exclusion; only `buildRelationships`
does). -/
theorem c2_self_reference_counterexample :
    (analyzeSchema selfRefSchema).entities.map (fun e => (e.name, e.references))
      = [("User", ["User"])]
    ∧ (analyzeSchema selfRefSchema).entities.any
        (fun e => e.references.contains e.name) = true :=
  ⟨rfl, rfl⟩

/-- C5: trait classification is case-insensitive substring matching of each
pattern against each field name, decided independently per trait; identity
detection is a case-sensitive exact match on `id`/`_id`/`ID`; consequently a
`UserProfile` type with fields `[id, email, updatedAt]` classifies as
hasId, sensitive and volatile only. -/
theorem c5_characteristics :
    (∀ (t : IntrospectionType) (fields : List FieldInfo),
      ((analyzeCharacteristics t fields).isVolatile = true
        ↔ ∃ p ∈ VOLATILE_FIELD_PATTERNS, ∃ f ∈ fields,
            jsIncludes (jsToLower f.name) (jsToLower p) = true)
      ∧ ((analyzeCharacteristics t fields).isUserSpecific = true
        ↔ ∃ p ∈ USER_SPECIFIC_PATTERNS, ∃ f ∈ fields,
            jsIncludes (jsToLower f.name) (jsToLower p) = true)
      ∧ ((analyzeCharacteristics t fields).hasSensitiveFields = true
        ↔ ∃ p ∈ SENSITIVE_FIELD_PATTERNS, ∃ f ∈ fields,
            jsIncludes (jsToLower f.name) (jsToLower p) = true))
    ∧ (∀ tfs : List IntrospectionField,
        hasIdField tfs = true
          ↔ ∃ f ∈ tfs, f.name = "id" ∨ f.name = "_id" ∨ f.name = "ID")
    ∧ (extractEntities [userProfileType] [userProfileType]).map
        (fun e => (e.hasId, e.characteristics))
      = [(true, { isVolatile := true, isUserSpecific := false
                  isCollection := false, hasSensitiveFields := true
                  isRootType := false })] := by
  refine ⟨fun t fields => ⟨?_, ?_, ?_⟩, fun tfs => ?_, rfl⟩
  · simp [analyzeCharacteristics, List.any_eq_true, List.mem_map]
  · simp [analyzeCharacteristics, List.any_eq_true, List.mem_map]
  · simp [analyzeCharacteristics, List.any_eq_true, List.mem_map]
  · simp [hasIdField, List.any_eq_true, or_assoc]

theorem enrich_map_name (rels : List TypeRelationship) :
    ∀ es : List EntityType,
      (enrichEntitiesWithRelationships es rels).map (fun e => e.name)
        = es.map (fun e => e.name)
  | [] => rfl
  | e :: rest => by
      simp only [enrichEntitiesWithRelationships, List.map_cons]
      rw [enrich_map_name rels rest]
      split <;> rfl

theorem enrich_eq_map_of_nodup (rels : List TypeRelationship) :
    ∀ es : List EntityType, (es.map (fun e => e.name)).Nodup →
      enrichEntitiesWithRelationships es rels
        = es.map (fun e =>
            { e with referencedBy :=
                rels.foldl (referencedByStep e.name) e.referencedBy })
  | [], _ => rfl
  | e :: rest, h => by
      simp only [List.map_cons, List.nodup_cons, List.mem_map] at h
      obtain ⟨hnot, hrest⟩ := h
      have hall : rest.all (fun e2 => e2.name != e.name) = true := by
        simp only [List.all_eq_true, bne_iff_ne]
        intro e2 he2 heq
        exact hnot ⟨e2, he2, heq⟩
      simp only [enrichEntitiesWithRelationships, hall, if_true, List.map_cons]
      rw [enrich_eq_map_of_nodup rels rest hrest]

theorem extractEntities_referencedBy (types tm : List IntrospectionType) :
    ∀ e ∈ extractEntities types tm, e.referencedBy = [] := by
  intro e he
  simp only [extractEntities, List.mem_filterMap] at he
  obtain ⟨t, _, heq⟩ := he
  split at heq
  · cases heq
  · split at heq
    · cases heq
    · split at heq
      · cases heq
      · cases heq
        rfl

theorem mem_foldl_rbStep (name : String) :
    ∀ (rels : List TypeRelationship) (acc : List String) (a : String),
      a ∈ rels.foldl (referencedByStep name) acc
        ↔ a ∈ acc ∨ ∃ r ∈ rels, r.from_ = a ∧ r.to_ = name
  | [], acc, a => by simp
  | rel :: rest, acc, a => by
      rw [List.foldl_cons, mem_foldl_rbStep name rest]
      simp only [referencedByStep, List.exists_mem_cons_iff]
      split
      · rename_i hcond
        simp only [Bool.and_eq_true, beq_iff_eq, Bool.not_eq_true'] at hcond
        obtain ⟨h1, h2⟩ := hcond
        subst h1
        constructor
        · rintro (hmem | hrest)
          · rcases List.mem_append.mp hmem with hacc | hx
            · exact Or.inl hacc
            · exact Or.inr (Or.inl ⟨(List.mem_singleton.mp hx).symm, rfl⟩)
          · exact Or.inr (Or.inr hrest)
        · rintro (hacc | ⟨hfa, _⟩ | hrest)
          · exact Or.inl (List.mem_append.mpr (Or.inl hacc))
          · exact Or.inl
              (List.mem_append.mpr (Or.inr (List.mem_singleton.mpr hfa.symm)))
          · exact Or.inr hrest
      · rename_i hcond
        simp only [Bool.and_eq_true, beq_iff_eq, Bool.not_eq_true',
          not_and] at hcond
        constructor
        · rintro (hacc | hrest)
          · exact Or.inl hacc
          · exact Or.inr (Or.inr hrest)
        · rintro (hacc | ⟨hfa, hta⟩ | hrest)
          · exact Or.inl hacc
          · have hc := hcond hta
            have hmem : rel.from_ ∈ acc := by
              by_contra hx
              simp [hx] at hc
            exact Or.inl (hfa ▸ hmem)
          · exact Or.inr hrest

theorem nodup_foldl_rbStep (name : String) :
    ∀ (rels : List TypeRelationship) (acc : List String), acc.Nodup →
      (rels.foldl (referencedByStep name) acc).Nodup
  | [], _, h => h
  | rel :: rest, acc, h => by
      rw [List.foldl_cons]
      apply nodup_foldl_rbStep name rest
      simp only [referencedByStep]
      split
      · rename_i hcond
        simp only [Bool.and_eq_true, beq_iff_eq, Bool.not_eq_true'] at hcond
        rw [List.nodup_append]
        refine ⟨h, List.nodup_singleton _, ?_⟩
        intro b hb hbx
        rw [List.mem_singleton.mp hbx] at hb
        have : acc.contains rel.from_ = true := by simp [hb]
        rw [this] at hcond
        exact absurd hcond.2 (by simp)
      · exact h

/-- C3 AMENDED: for every introspection schema WHOSE EXTRACTED ENTITY NAMES
ARE PAIRWISE DISTINCT, the `referencedBy` sets and the relationship edge
list are mutually consistent (`A ∈ B.referencedBy` iff some edge has
`from = A` and `to = B`), and `referencedBy` never contains duplicates even
when several edges share the same `(from, to)` pair. -/
theorem c3_referencedBy_amended (schema : IntrospectionSchema)
    (h : ((analyzeSchema schema).entities.map (fun e => e.name)).Nodup) :
    ∀ b ∈ (analyzeSchema schema).entities,
      (∀ a : String,
        a ∈ b.referencedBy
          ↔ ∃ r ∈ (analyzeSchema schema).relationships,
              r.from_ = a ∧ r.to_ = b.name)
      ∧ b.referencedBy.Nodup := by
  intro b hb
  have hent : (analyzeSchema schema).entities
      = enrichEntitiesWithRelationships
          (extractEntities schema.types schema.types)
          (buildRelationships (extractEntities schema.types schema.types)
            schema.types) := rfl
  have hrel : (analyzeSchema schema).relationships
      = buildRelationships (extractEntities schema.types schema.types)
          schema.types := rfl
  rw [hent, enrich_map_name] at h
  rw [hent, enrich_eq_map_of_nodup _ _ h] at hb
  simp only [List.mem_map] at hb
  obtain ⟨e, he, rfl⟩ := hb
  have hrb : e.referencedBy = [] :=
    extractEntities_referencedBy schema.types schema.types e he
  constructor
  · intro a
    rw [hrel]
    show a ∈ (buildRelationships (extractEntities schema.types schema.types)
        schema.types).foldl (referencedByStep e.name) e.referencedBy ↔ _
    rw [hrb, mem_foldl_rbStep]
    simp
  · show ((buildRelationships (extractEntities schema.types schema.types)
        schema.types).foldl (referencedByStep e.name) e.referencedBy).Nodup
    rw [hrb]
    exact nodup_foldl_rbStep e.name _ _ (List.nodup_nil)

/-- C3 counterexample: with two distinct object types both named `User`,
the first `User` entity record has an empty `referencedBy` although an edge
`Post -> User` exists (the source back-fills only the LAST entity of each
name through its name-keyed entity map), so the claim over every schema is
false. -/
theorem c3_referencedBy_counterexample :
    ∃ b ∈ (analyzeSchema dupNameSchema).entities,
      (∃ r ∈ (analyzeSchema dupNameSchema).relationships,
          r.from_ = "Post" ∧ r.to_ = b.name)
      ∧ "Post" ∉ b.referencedBy := by
  decide

/-- Witness for C3 at the end-to-end schema (distinct entity names). -/
theorem c3_referencedBy_witness :
    (((analyzeSchema demoSchema).entities.map (fun e => e.name)).Nodup)
    ∧ ∀ b ∈ (analyzeSchema demoSchema).entities,
        (∀ a : String,
          a ∈ b.referencedBy
            ↔ ∃ r ∈ (analyzeSchema demoSchema).relationships,
                r.from_ = a ∧ r.to_ = b.name)
        ∧ b.referencedBy.Nodup :=
  ⟨by decide, c3_referencedBy_amended demoSchema (by decide)⟩

theorem foldl_filterMap_insertUniq (g : String → Option String)
    (f : List String → String → List String)
    (hf : ∀ acc p, f acc p = (g p).elim acc (fun t => insertUniq acc t)) :
    ∀ (l acc : List String),
      l.foldl f acc = (l.filterMap g).foldl insertUniq acc
  | [], _ => rfl
  | p :: rest, acc => by
      cases hgp : g p with
      | none =>
          simp only [List.foldl_cons, List.filterMap_cons, hf, hgp, Option.elim]
          exact foldl_filterMap_insertUniq g f hf rest acc
      | some t =>
          simp only [List.foldl_cons, List.filterMap_cons, hf, hgp, Option.elim]
          exact foldl_filterMap_insertUniq g f hf rest (insertUniq acc t)

theorem inferAffectedTypes_eq_claimAmended (n r : String)
    (tm : List IntrospectionType) :
    inferAffectedTypes n r tm = affectedTypesClaimAmended n r tm := by
  simp only [inferAffectedTypes, affectedTypesClaimAmended, dedupKeepFirst]
  rw [List.foldl_append]
  have hbase :
      (match tmGet tm r with
       | some returnTypeInfo =>
           if returnTypeInfo.kind == TypeKind.OBJECT
               && !(BUILT_IN_TYPES.contains r) then insertUniq [] r else []
       | none => []) =
      List.foldl insertUniq []
        (match tmGet tm r with
         | some rt =>
             if rt.kind == TypeKind.OBJECT
                 && !(BUILT_IN_TYPES.contains r) then [r] else []
         | none => ([] : List String)) := by
    cases tmGet tm r with
    | none => rfl
    | some rt =>
        by_cases hc : (rt.kind == TypeKind.OBJECT
            && !(BUILT_IN_TYPES.contains r)) = true
        · simp at hc
          simp [hc, insertUniq]
        · simp at hc
          have hneg : ¬(rt.kind = TypeKind.OBJECT ∧ r ∉ BUILT_IN_TYPES) :=
            fun hconj => hconj.2 (hc hconj.1)
          simp [hneg]
  rw [← hbase]
  apply foldl_filterMap_insertUniq
    (fun pre =>
      if jsStartsWith (jsToLower n) pre then
        if extractTypeFromMutation n pre != ""
            && tmHas tm (extractTypeFromMutation n pre) then
          some (extractTypeFromMutation n pre)
        else none
      else none)
  intro acc p
  by_cases hs : jsStartsWith (jsToLower n) p = true
  · by_cases ht : (extractTypeFromMutation n p != ""
        && tmHas tm (extractTypeFromMutation n p)) = true
    · simp [hs, ht, Option.elim]
    · simp [hs, ht, Option.elim]
  · simp [hs, Option.elim]

/-- C4 AMENDED: the inferred affected-types list equals the deduplicated
union, in discovery order, of the return-type hit and the prefix-derived
hits, where a prefix-derived string counts only when it is NON-EMPTY and a
key of the type map (the source guards with JS truthiness `type &&`); in
particular `createWidget` returning entity `Widget` infers `["Widget"]` and
`toggleFeatureFlag` infers `[]`. -/
theorem c4_affected_types_amended :
    (∀ (mutationName returnType : String) (typeMap : List IntrospectionType),
      inferAffectedTypes mutationName returnType typeMap
        = affectedTypesClaimAmended mutationName returnType typeMap)
    ∧ inferAffectedTypes "createWidget" "Widget" widgetTypeMap = ["Widget"]
    ∧ inferAffectedTypes "toggleFeatureFlag" "Boolean" toggleTypeMap = [] :=
  ⟨inferAffectedTypes_eq_claimAmended, rfl, rfl⟩

/-- C4 counterexample: for a mutation named exactly `create` and a type map
binding the empty string, the claim as stated would add `""` (it is a key
of the type map) but the source drops it via the `type &&` guard. -/
theorem c4_affected_types_counterexample :
    inferAffectedTypes "create" "None" emptyNameTypeMap = []
    ∧ affectedTypesClaim "create" "None" emptyNameTypeMap = [""]
    ∧ ([] : List String) ≠ [""] :=
  ⟨rfl, rfl, by decide⟩

theorem foldl_bucketStep :
    ∀ (es : List EntityType) (v u s st : List String),
      es.foldl bucketStep (v, u, s, st) =
        (v ++ (es.filter (fun e => !e.characteristics.isRootType
                && bucketOf e == CacheBucket.volatile)).map (fun e => e.name),
         u ++ (es.filter (fun e => !e.characteristics.isRootType
                && bucketOf e == CacheBucket.userSpecific)).map (fun e => e.name),
         s ++ (es.filter (fun e => !e.characteristics.isRootType
                && bucketOf e == CacheBucket.sensitive)).map (fun e => e.name),
         st ++ (es.filter (fun e => !e.characteristics.isRootType
                && bucketOf e == CacheBucket.stable)).map (fun e => e.name))
  | [], v, u, s, st => by simp
  | e :: rest, v, u, s, st => by
      rw [List.foldl_cons]
      by_cases hroot : e.characteristics.isRootType = true
      · have hstep : bucketStep (v, u, s, st) e = (v, u, s, st) := by
          simp [bucketStep, hroot]
        rw [hstep, foldl_bucketStep rest v u s st]
        simp [List.filter_cons, hroot]
      · have hroot' : e.characteristics.isRootType = false := by
          simpa using hroot
        by_cases hsens : e.characteristics.hasSensitiveFields = true
        · have hstep : bucketStep (v, u, s, st) e
              = (v, u, s ++ [e.name], st) := by
            simp [bucketStep, hroot', hsens]
          have hb : bucketOf e = CacheBucket.sensitive := by
            simp [bucketOf, hsens]
          rw [hstep, foldl_bucketStep rest v u (s ++ [e.name]) st]
          simp [List.filter_cons, hroot', hb]
        · have hsens' : e.characteristics.hasSensitiveFields = false := by
            simpa using hsens
          by_cases huser : e.characteristics.isUserSpecific = true
          · have hstep : bucketStep (v, u, s, st) e
                = (v, u ++ [e.name], s, st) := by
              simp [bucketStep, hroot', hsens', huser]
            have hb : bucketOf e = CacheBucket.userSpecific := by
              simp [bucketOf, hsens', huser]
            rw [hstep, foldl_bucketStep rest v (u ++ [e.name]) s st]
            simp [List.filter_cons, hroot', hb]
          · have huser' : e.characteristics.isUserSpecific = false := by
              simpa using huser
            by_cases hvol : e.characteristics.isVolatile = true
            · have hstep : bucketStep (v, u, s, st) e
                  = (v ++ [e.name], u, s, st) := by
                simp [bucketStep, hroot', hsens', huser', hvol]
              have hb : bucketOf e = CacheBucket.volatile := by
                simp [bucketOf, hsens', huser', hvol]
              rw [hstep, foldl_bucketStep rest (v ++ [e.name]) u s st]
              simp [List.filter_cons, hroot', hb]
            · have hvol' : e.characteristics.isVolatile = false := by
                simpa using hvol
              have hstep : bucketStep (v, u, s, st) e
                  = (v, u, s, st ++ [e.name]) := by
                simp [bucketStep, hroot', hsens', huser', hvol']
              have hb : bucketOf e = CacheBucket.stable := by
                simp [bucketOf, hsens', huser', hvol']
              rw [hstep, foldl_bucketStep rest v u s (st ++ [e.name])]
              simp [List.filter_cons, hroot', hb]

theorem foldl_invalidationStep :
    ∀ (ms : List OperationType) (acc : List (String × Json)),
      ((ms.filter (fun m => m.affectedTypes.length > 0)).map
          (fun m => m.name)).Nodup →
      (∀ m ∈ ms, m.affectedTypes.length > 0 →
          acc.any (fun p => p.1 == m.name) = false) →
      ms.foldl invalidationStep acc
        = acc ++ (ms.filter (fun m => m.affectedTypes.length > 0)).map
            (fun m => (m.name,
              Json.arr (m.affectedTypes.map (fun t => Json.str (t ++ ":*")))))
  | [], acc, _, _ => by simp
  | m :: rest, acc, hnodup, hacc => by
      rw [List.foldl_cons]
      by_cases hlen : m.affectedTypes.length > 0
      · have hany := hacc m (List.mem_cons_self m rest) hlen
        have hstep : invalidationStep acc m
            = acc ++ [(m.name,
                Json.arr (m.affectedTypes.map (fun t => Json.str (t ++ ":*"))))] := by
          simp [invalidationStep, hlen, recordSet, hany]
        have hfil : (m :: rest).filter
              (fun m => m.affectedTypes.length > 0)
            = m :: rest.filter (fun m => m.affectedTypes.length > 0) := by
          simp [List.filter_cons, hlen]
        rw [hfil] at hnodup
        simp only [List.map_cons, List.nodup_cons] at hnodup
        obtain ⟨hhead, hrest_nodup⟩ := hnodup
        have hacc' : ∀ m2 ∈ rest, m2.affectedTypes.length > 0 →
            ((acc ++ [(m.name,
              Json.arr (m.affectedTypes.map (fun t => Json.str (t ++ ":*"))))]).any
                (fun p => p.1 == m2.name)) = false := by
          intro m2 hm2 hlen2
          have h1 := hacc m2 (List.mem_cons_of_mem m hm2) hlen2
          have h2 : m.name ≠ m2.name := by
            intro heq
            apply hhead
            rw [heq]
            exact List.mem_map.mpr
              ⟨m2, List.mem_filter.mpr ⟨hm2, by simpa using hlen2⟩, rfl⟩
          simp [List.any_append, h1, h2]
        rw [hstep, foldl_invalidationStep rest _ hrest_nodup hacc']
        simp [hfil]
      · have hstep : invalidationStep acc m = acc := by
          simp [invalidationStep, hlen]
        have hfil : (m :: rest).filter
              (fun m => m.affectedTypes.length > 0)
            = rest.filter (fun m => m.affectedTypes.length > 0) := by
          simp [List.filter_cons, hlen]
        rw [hfil] at hnodup
        rw [hstep, foldl_invalidationStep rest acc hnodup
          (fun m2 hm2 hl2 => hacc m2 (List.mem_cons_of_mem m hm2) hl2)]
        simp [hfil]

/-- C6: `generateBasicConfig` buckets every non-root entity by the priority
sensitive > userSpecific > volatile > stable (each entity record lands in
exactly the bucket of its highest-priority trait), emits one rule per
non-empty bucket with the fixed constants, and maps each mutation with
non-empty affected types to its `"<Type>:*"` patterns. -/
theorem c6_basic_config (schema : AnalyzedSchema)
    (h : ((schema.mutations.filter (fun m => m.affectedTypes.length > 0)).map
        (fun m => m.name)).Nodup) :
    (generateBasicConfig schema).rules = rulesSpec schema
    ∧ (generateBasicConfig schema).invalidations
        = Json.obj (invalidationsSpec schema)
    ∧ ∀ e ∈ schema.entities, e.characteristics.isRootType = false →
        e ∈ schema.entities.filter (fun e2 =>
          !e2.characteristics.isRootType && bucketOf e2 == bucketOf e)
        ∧ ∀ b : CacheBucket, b ≠ bucketOf e →
            e ∉ schema.entities.filter (fun e2 =>
              !e2.characteristics.isRootType && bucketOf e2 == b) := by
  refine ⟨?_, ?_, ?_⟩
  · simp only [generateBasicConfig, foldl_bucketStep, List.nil_append]
    simp [rulesSpec, bucketNames, bucketRule]
  · simp only [generateBasicConfig]
    rw [foldl_invalidationStep schema.mutations [] h (fun m _ _ => rfl)]
    simp [invalidationsSpec]
  · intro e he hroot
    constructor
    · exact List.mem_filter.mpr ⟨he, by simp [hroot]⟩
    · intro b hb hmem
      have hcond := (List.mem_filter.mp hmem).2
      simp only [hroot, Bool.not_false, Bool.true_and, beq_iff_eq] at hcond
      exact hb hcond.symm

/-- Witness for C6 at a schema whose first entity is both sensitive and
volatile (it lands only in the sensitive bucket). -/
theorem c6_basic_config_witness :
    ((multiTraitSchema.mutations.filter
        (fun m => m.affectedTypes.length > 0)).map (fun m => m.name)).Nodup
    ∧ ((generateBasicConfig multiTraitSchema).rules = rulesSpec multiTraitSchema
       ∧ (generateBasicConfig multiTraitSchema).invalidations
           = Json.obj (invalidationsSpec multiTraitSchema)
       ∧ ∀ e ∈ multiTraitSchema.entities,
           e.characteristics.isRootType = false →
           e ∈ multiTraitSchema.entities.filter (fun e2 =>
             !e2.characteristics.isRootType && bucketOf e2 == bucketOf e)
           ∧ ∀ b : CacheBucket, b ≠ bucketOf e →
               e ∉ multiTraitSchema.entities.filter (fun e2 =>
                 !e2.characteristics.isRootType && bucketOf e2 == b)) :=
  ⟨by decide, c6_basic_config multiTraitSchema (by decide)⟩

theorem getFieldE_ne_null {j : Json} (h : j ≠ Json.null) (k : String) :
    getFieldE j k = Except.ok (getField? j k) := by
  cases j with
  | null => exact absurd rfl h
  | bool b => rfl
  | num q => rfl
  | str s => rfl
  | arr xs => rfl
  | obj fields => rfl

theorem mapRule_ok {r : Json} (h : r ≠ Json.null) :
    mapRule r = Except.ok
      { types :=
          match getField? r "types" with
          | some v => if jsTruthy v then v else Json.arr []
          | none => Json.arr []
        maxAge :=
          match getField? r "maxAge" with
          | some Json.null => some (Json.num 300)
          | some v => some v
          | none => some (Json.num 300)
        staleWhileRevalidate := getField? r "staleWhileRevalidate"
        staleIfError := getField? r "staleIfError"
        scope := getField? r "scope"
        passthrough := getField? r "passthrough"
        reasoning :=
          match getField? r "reasoning" with
          | some v => if jsTruthy v then v else Json.str "No reasoning provided"
          | none => Json.str "No reasoning provided" } := by
  cases r with
  | null => exact absurd rfl h
  | bool b => rfl
  | num q => rfl
  | str s => rfl
  | arr xs => rfl
  | obj fields => rfl

theorem mapM_mapRule_ok :
    ∀ rs : List Json, Json.null ∉ rs →
      ∃ outs : List GeneratedCacheRule,
        rs.mapM mapRule = Except.ok outs
        ∧ List.Forall₂ (fun (r : Json) (out : GeneratedCacheRule) =>
            (getField? r "maxAge" = none → out.maxAge = some (Json.num 300))
            ∧ (getField? r "reasoning" = none →
                out.reasoning = Json.str "No reasoning provided")) rs outs
  | [], _ => ⟨[], rfl, List.Forall₂.nil⟩
  | r :: rest, h => by
      have hr : r ≠ Json.null :=
        fun he => h (he ▸ List.mem_cons_self r rest)
      have hrest : Json.null ∉ rest :=
        fun hm => h (List.mem_cons_of_mem r hm)
      obtain ⟨outs, houts, hfa⟩ := mapM_mapRule_ok rest hrest
      obtain ⟨out, hout, hma, hre⟩ :
          ∃ out, mapRule r = Except.ok out
            ∧ (getField? r "maxAge" = none → out.maxAge = some (Json.num 300))
            ∧ (getField? r "reasoning" = none →
                out.reasoning = Json.str "No reasoning provided") := by
        refine ⟨_, mapRule_ok hr, ?_, ?_⟩
        · intro hma
          simp [hma]
        · intro hre
          simp [hre]
      refine ⟨out :: outs, ?_, List.Forall₂.cons ⟨hma, hre⟩ hfa⟩
      rw [List.mapM_cons, hout, houts]
      rfl

theorem parseAIResponseJson_obj (fields : List (String × Json)) :
    parseAIResponseJson (Json.obj fields)
      = (match lookupLast fields "rules" with
         | some (Json.arr rs) =>
             (rs.mapM mapRule) >>= (fun rules =>
               Except.ok
                 { rules := rules
                   invalidations :=
                     jsOrDefault (lookupLast fields "invalidations")
                       (Json.obj [])
                   explanation :=
                     jsOrDefault (lookupLast fields "explanation")
                       (Json.str "No explanation provided")
                   confidence := confidenceOf (lookupLast fields "confidence")
                   warnings := warningsOf (lookupLast fields "warnings") })
         | _ => Except.error "Missing or invalid rules array") := rfl

theorem parseAIResponseJson_rules (fields : List (String × Json))
    (rs : List Json) (hlk : lookupLast fields "rules" = some (Json.arr rs)) :
    parseAIResponseJson (Json.obj fields)
      = (rs.mapM mapRule) >>= (fun rules =>
          Except.ok
            { rules := rules
              invalidations :=
                jsOrDefault (lookupLast fields "invalidations") (Json.obj [])
              explanation :=
                jsOrDefault (lookupLast fields "explanation")
                  (Json.str "No explanation provided")
              confidence := confidenceOf (lookupLast fields "confidence")
              warnings := warningsOf (lookupLast fields "warnings") }) := by
  rw [parseAIResponseJson_obj, hlk]

theorem parseAIResponseJson_error_of_no_rules (parsed : Json)
    (hra : rulesArrayOf parsed = none) :
    ∃ msg, parseAIResponseJson parsed = Except.error msg := by
  cases parsed with
  | null => exact ⟨_, rfl⟩
  | bool b => exact ⟨_, rfl⟩
  | num q => exact ⟨_, rfl⟩
  | str s => exact ⟨_, rfl⟩
  | arr xs => exact ⟨_, rfl⟩
  | obj fields =>
      rw [parseAIResponseJson_obj]
      simp only [rulesArrayOf] at hra
      cases hlk : lookupLast fields "rules" with
      | none => exact ⟨_, rfl⟩
      | some v =>
          cases v with
          | arr rs =>
              rw [hlk] at hra
              exact Option.noConfusion hra
          | null => exact ⟨_, rfl⟩
          | bool b => exact ⟨_, rfl⟩
          | num q => exact ⟨_, rfl⟩
          | str s => exact ⟨_, rfl⟩
          | obj fs => exact ⟨_, rfl⟩

/-- C8 AMENDED: `parseAIResponse` first strips a fenced code block, then
fails whenever `JSON.parse` fails or the parsed value lacks an array-valued
`rules` field; whenever `rules` is an array NONE OF WHOSE ELEMENTS IS JSON
`null`, it succeeds and repairs each rule per-field (missing `maxAge`
becomes 300, missing `reasoning` becomes the placeholder string).  A `null`
rule element makes the whole parse fail (a JS `TypeError` is caught by the
surrounding try/catch), which is what forces the amendment. -/
theorem c8_parse_response_amended (parseJson : String → Option Json)
    (text : String) :
    (parseJson (stripCodeBlock text) = none →
      parseAIResponse parseJson text
        = Except.error "Failed to parse AI response: invalid JSON")
    ∧ (∀ parsed, parseJson (stripCodeBlock text) = some parsed →
        rulesArrayOf parsed = none →
        ∃ msg, parseAIResponse parseJson text = Except.error msg)
    ∧ (∀ parsed rs, parseJson (stripCodeBlock text) = some parsed →
        rulesArrayOf parsed = some rs →
        Json.null ∉ rs →
        ∃ resp, parseAIResponse parseJson text = Except.ok resp
          ∧ List.Forall₂ (fun (r : Json) (out : GeneratedCacheRule) =>
              (getField? r "maxAge" = none → out.maxAge = some (Json.num 300))
              ∧ (getField? r "reasoning" = none →
                  out.reasoning = Json.str "No reasoning provided"))
            rs resp.rules) := by
  refine ⟨?_, ?_, ?_⟩
  · intro h
    simp [parseAIResponse, h]
  · intro parsed hp hra
    obtain ⟨m, hm⟩ := parseAIResponseJson_error_of_no_rules parsed hra
    refine ⟨"Failed to parse AI response: " ++ m, ?_⟩
    simp [parseAIResponse, hp, hm]
  · intro parsed rs hp hra hnull
    cases parsed with
    | null => simp [rulesArrayOf] at hra
    | bool b => simp [rulesArrayOf] at hra
    | num q => simp [rulesArrayOf] at hra
    | str s => simp [rulesArrayOf] at hra
    | arr xs => simp [rulesArrayOf] at hra
    | obj fields =>
        simp only [rulesArrayOf] at hra
        cases hlk : lookupLast fields "rules" with
        | none =>
            rw [hlk] at hra
            exact Option.noConfusion hra
        | some v =>
            cases v with
            | arr rs0 =>
                rw [hlk] at hra
                have hrs : rs0 = rs := by
                  have hss : some rs0 = some rs := hra
                  exact Option.some.inj hss
                subst hrs
                obtain ⟨outs, houts, hfa⟩ := mapM_mapRule_ok rs0 hnull
                refine ⟨{ rules := outs
                          invalidations :=
                            jsOrDefault (lookupLast fields "invalidations")
                              (Json.obj [])
                          explanation :=
                            jsOrDefault (lookupLast fields "explanation")
                              (Json.str "No explanation provided")
                          confidence :=
                            confidenceOf (lookupLast fields "confidence")
                          warnings :=
                            warningsOf (lookupLast fields "warnings") },
                  ?_, hfa⟩
                simp only [parseAIResponse, hp]
                rw [parseAIResponseJson_rules fields rs0 hlk, houts]
                rfl
            | null =>
                rw [hlk] at hra
                exact Option.noConfusion hra
            | bool b =>
                rw [hlk] at hra
                exact Option.noConfusion hra
            | num q =>
                rw [hlk] at hra
                exact Option.noConfusion hra
            | str s =>
                rw [hlk] at hra
                exact Option.noConfusion hra
            | obj fs =>
                rw [hlk] at hra
                exact Option.noConfusion hra

/-- C8 counterexample: the text `{"rules":[null]}` parses to an object whose
`rules` field IS an array, yet `parseAIResponse` fails (reading `.types` of
the `null` element throws), so "for every input whose rules field is an
array, it succeeds" is false as stated. -/
theorem c8_parse_response_counterexample :
    rulesArrayOf nullRuleJson = some [Json.null]
    ∧ pjNullRule nullRuleText = some nullRuleJson
    ∧ parseAIResponse pjNullRule nullRuleText
        = Except.error
            "Failed to parse AI response: Cannot read properties of null (reading types)" :=
  ⟨rfl, rfl, rfl⟩

/-- Witness for C8 at the text `{"rules":[{}]}`: the empty rule object is
repaired with the default `maxAge` 300 and the placeholder reasoning. -/
theorem c8_parse_response_witness :
    pjOkRules (stripCodeBlock okRulesText) = some okRulesJson
    ∧ rulesArrayOf okRulesJson = some [Json.obj []]
    ∧ ∃ resp, parseAIResponse pjOkRules okRulesText = Except.ok resp
        ∧ List.Forall₂ (fun (r : Json) (out : GeneratedCacheRule) =>
            (getField? r "maxAge" = none → out.maxAge = some (Json.num 300))
            ∧ (getField? r "reasoning" = none →
                out.reasoning = Json.str "No reasoning provided"))
          [Json.obj []] resp.rules := by
  refine ⟨rfl, rfl,
    (c8_parse_response_amended pjOkRules okRulesText).2.2 okRulesJson
      [Json.obj []] rfl rfl ?_⟩
  intro hmem
  exact Json.noConfusion (List.mem_singleton.mp hmem)

theorem convertRule_eq (rule : GeneratedCacheRule) :
    convertRule rule =
      { types := rule.types
        maxAge := rule.maxAge
        staleWhileRevalidate :=
          match rule.staleWhileRevalidate with
          | some v => if jsGtZero v then some v else none
          | none => none
        staleIfError :=
          match rule.staleIfError with
          | some v => if jsGtZero v then some v else none
          | none => none
        scope :=
          match rule.scope with
          | some v => if jsTruthy v then some v else none
          | none => none
        passthrough :=
          match rule.passthrough with
          | some v => if jsTruthy v then some (Json.bool true) else none
          | none => none } := by
  rcases rule with ⟨ty, ma, swr, sie, sc, pt, re⟩
  cases ma <;> cases swr <;> cases sie <;> cases sc <;> cases pt <;>
    simp only [convertRule] <;>
    split_ifs <;> rfl

/-- C10: `convertToOrionConfig` drops `staleWhileRevalidate`/`staleIfError`
values that are present but not strictly positive, emits `passthrough` only
as `true` (never `passthrough: false`), and sets the config defaults to
`staleWhileRevalidate 0`, `staleIfError 0` and a `maxAge` of 60/300/900
chosen solely by the short/medium-or-absent/long TTL preference. -/
theorem c10_convert_to_orion_config (aiResponse : AIConfigResponse)
    (preferences : Option ConfigPreferences) :
    (convertToOrionConfig aiResponse preferences).defaults
        = { maxAge := prefMaxAgeSpec preferences
            staleWhileRevalidate := 0, staleIfError := 0 }
    ∧ (prefMaxAgeSpec preferences = 60 ∨ prefMaxAgeSpec preferences = 300
        ∨ prefMaxAgeSpec preferences = 900)
    ∧ List.Forall₂ (fun (rule : GeneratedCacheRule) (out : OrionCacheRule) =>
        (∀ q : Rat, rule.staleWhileRevalidate = some (Json.num q) →
            out.staleWhileRevalidate
              = if 0 < q then some (Json.num q) else none)
        ∧ (rule.staleWhileRevalidate = some Json.null →
            out.staleWhileRevalidate = none)
        ∧ (rule.staleWhileRevalidate = none → out.staleWhileRevalidate = none)
        ∧ (∀ q : Rat, rule.staleIfError = some (Json.num q) →
            out.staleIfError = if 0 < q then some (Json.num q) else none)
        ∧ (rule.staleIfError = some Json.null → out.staleIfError = none)
        ∧ (rule.staleIfError = none → out.staleIfError = none)
        ∧ (rule.passthrough = some (Json.bool true) →
            out.passthrough = some (Json.bool true))
        ∧ (rule.passthrough = some (Json.bool false) → out.passthrough = none)
        ∧ (rule.passthrough = none → out.passthrough = none)
        ∧ out.passthrough ≠ some (Json.bool false))
      aiResponse.rules (convertToOrionConfig aiResponse preferences).rules := by
  refine ⟨rfl, ?_, ?_⟩
  · cases preferences with
    | none => exact Or.inr (Or.inl rfl)
    | some p =>
        rcases p with ⟨ttl, a, b, c, d⟩
        cases ttl with
        | none => exact Or.inr (Or.inl rfl)
        | some t =>
            cases t with
            | short => exact Or.inl rfl
            | medium => exact Or.inr (Or.inl rfl)
            | long => exact Or.inr (Or.inr rfl)
  · show List.Forall₂ _ aiResponse.rules (aiResponse.rules.map convertRule)
    rw [List.forall₂_map_right_iff, List.forall₂_same]
    intro rule _
    rw [convertRule_eq]
    refine ⟨?_, ?_, ?_, ?_, ?_, ?_, ?_, ?_, ?_, ?_⟩
    · intro q hq
      rw [hq]
      by_cases h0 : 0 < q
      · simp [jsGtZero, h0]
      · simp [jsGtZero, h0]
    · intro hq
      rw [hq]
      rfl
    · intro hq
      rw [hq]
    · intro q hq
      rw [hq]
      by_cases h0 : 0 < q
      · simp [jsGtZero, h0]
      · simp [jsGtZero, h0]
    · intro hq
      rw [hq]
      rfl
    · intro hq
      rw [hq]
    · intro hq
      rw [hq]
      rfl
    · intro hq
      rw [hq]
      rfl
    · intro hq
      rw [hq]
    · cases hpt : rule.passthrough with
      | none => simp
      | some v =>
          by_cases hv : jsTruthy v = true
          · simp [hv]
          · simp [hv]

/-- Witness for C10 at a concrete response (`staleWhileRevalidate` 0 is
dropped, `staleIfError` 600 kept, `passthrough: false` never emitted) under
the `short` TTL preference. -/
theorem c10_convert_to_orion_config_witness :
    (convertToOrionConfig sampleAIResponse
        (some { defaultTtl := some TtlPref.short, aggressiveCaching := none
                noCacheTypes := none, privateTypes := none
                customHints := none })).defaults
      = { maxAge :=
            prefMaxAgeSpec
              (some { defaultTtl := some TtlPref.short
                      aggressiveCaching := none, noCacheTypes := none
                      privateTypes := none, customHints := none })
          staleWhileRevalidate := 0, staleIfError := 0 } :=
  (c10_convert_to_orion_config sampleAIResponse
    (some { defaultTtl := some TtlPref.short, aggressiveCaching := none
            noCacheTypes := none, privateTypes := none
            customHints := none })).1

/-- Witness for C5: the `UserProfile` classification instance. -/
theorem c5_characteristics_witness :
    (extractEntities [userProfileType] [userProfileType]).map
        (fun e => (e.hasId, e.characteristics))
      = [(true, { isVolatile := true, isUserSpecific := false
                  isCollection := false, hasSensitiveFields := true
                  isRootType := false })] :=
  c5_characteristics.2.2

/-- Witness for C4: the general equation applied at `createWidget`. -/
theorem c4_affected_types_witness :
    inferAffectedTypes "createWidget" "Widget" widgetTypeMap
      = affectedTypesClaimAmended "createWidget" "Widget" widgetTypeMap :=
  c4_affected_types_amended.1 "createWidget" "Widget" widgetTypeMap
